import Mathlib

/-!
Verification development for the deidentification worker and its manual API layer.

The Python sources embedded here:
  * `worker.py` — `DeidentificationWorker`: table discovery (`is_user_table`),
    shadow-table creation (`create_deidentified_table`), bulk sync
    (`sync_existing_records`), incremental polling (`monitor_new_records`),
    the orchestration in `run`, and the stop flag / signal handling.
  * `app/deidentify.py` — `DeidentificationManager`: `_hmac_hash`,
    `generate_anon_id`, `signup_cohort`.

Modelling conventions:
  * Python byte strings are `List Nat` (each entry a byte value); `str.encode()`
    is UTF-8 encoding (`strBytes`).
  * `hashlib.sha256` and `hmac.new(..., hashlib.sha256)` are given a full
    executable embedding (`sha256`, `hmacSha256`), so digests evaluate inside
    the kernel.
  * Machine-width arithmetic inside SHA-256 is `Nat` with explicit `% 2^32`.
  * A Python value that may be `None` is an `Option`; a function that raises
    is `Except` (or `Option` where only success/failure matters).
  * The running schema of the spec (`id`, `email`, `full_name`, `created_at`)
    is fixed as the source-row record type; this is the schema every claim
    quantifies over.
-/

set_option maxRecDepth 20000

namespace DeidentApp

/-! ## Bytes and hex -/

/-- UTF-8 encoding of a single character (Python `str.encode()` per char). -/
def utf8Bytes (c : Char) : List Nat :=
  let n := c.toNat
  if n < 128 then [n]
  else if n < 2048 then
    [192 ||| (n >>> 6), 128 ||| (n &&& 63)]
  else if n < 65536 then
    [224 ||| (n >>> 12), 128 ||| ((n >>> 6) &&& 63), 128 ||| (n &&& 63)]
  else
    [240 ||| (n >>> 18), 128 ||| ((n >>> 12) &&& 63), 128 ||| ((n >>> 6) &&& 63), 128 ||| (n &&& 63)]

/-- Python `s.encode()`: the UTF-8 bytes of a string. -/
def strBytes (s : String) : List Nat :=
  s.data.foldr (fun c acc => utf8Bytes c ++ acc) []

/-- Lowercase hex digit for a value below 16 (as produced by `hexdigest()`). -/
def hexDigit (n : Nat) : Char :=
  if n < 10 then Char.ofNat (48 + n) else Char.ofNat (87 + n)

/-- Lowercase hexadecimal rendering of a byte list (Python `hexdigest()`). -/
def bytesToHex (l : List Nat) : String :=
  String.mk (l.foldr (fun b acc => hexDigit (b / 16) :: hexDigit (b % 16) :: acc) [])

/-! ## SHA-256 (hashlib.sha256), word width 32 bits as Nat mod 2^32 -/

def M32 : Nat := 4294967296

def wadd (a b : Nat) : Nat := (a + b) % M32

/-- Rotate a 32-bit word right by `n`. -/
def rotr (n x : Nat) : Nat := ((x >>> n) ||| (x <<< (32 - n))) % M32

def bigSigma0 (x : Nat) : Nat := (rotr 2 x) ^^^ (rotr 13 x) ^^^ (rotr 22 x)

def bigSigma1 (x : Nat) : Nat := (rotr 6 x) ^^^ (rotr 11 x) ^^^ (rotr 25 x)

def smallSigma0 (x : Nat) : Nat := (rotr 7 x) ^^^ (rotr 18 x) ^^^ (x >>> 3)

def smallSigma1 (x : Nat) : Nat := (rotr 17 x) ^^^ (rotr 19 x) ^^^ (x >>> 10)

def chF (x y z : Nat) : Nat := (x &&& y) ^^^ ((x ^^^ 4294967295) &&& z)

def majF (x y z : Nat) : Nat := (x &&& y) ^^^ (x &&& z) ^^^ (y &&& z)

/-- SHA-256 round constants (decimal values of the FIPS 180-2 table). -/
def shaK : List Nat := [
  1116352408, 1899447441, 3049323471, 3921009573, 961987163, 1508970993,
  2453635748, 2870763221, 3624381080, 310598401, 607225278, 1426881987,
  1925078388, 2162078206, 2614888103, 3248222580, 3835390401, 4022224774,
  264347078, 604807628, 770255983, 1249150122, 1555081692, 1996064986,
  2554220882, 2821834349, 2952996808, 3210313671, 3336571891, 3584528711,
  113926993, 338241895, 666307205, 773529912, 1294757372, 1396182291,
  1695183700, 1986661051, 2177026350, 2456956037, 2730485921, 2820302411,
  3259730800, 3345764771, 3516065817, 3600352804, 4094571909, 275423344,
  430227734, 506948616, 659060556, 883997877, 958139571, 1322822218,
  1537002063, 1747873779, 1955562222, 2024104815, 2227730452, 2361852424,
  2428436474, 2756734187, 3204031479, 3329325298]

/-- SHA-256 initial hash value (decimal values of the FIPS 180-2 table). -/
def shaH0 : List Nat :=
  [1779033703, 3144134277, 1013904242, 2773480762,
   1359893119, 2600822924, 528734635, 1541459225]

/-- Message schedule: extend the 16 block words by `n` further words. -/
def schedule (ws : List Nat) : Nat → List Nat
  | 0 => ws
  | n + 1 =>
    let prev := schedule ws n
    let t := prev.length
    let w := wadd (wadd (smallSigma1 (prev.getD (t - 2) 0)) (prev.getD (t - 7) 0))
                  (wadd (smallSigma0 (prev.getD (t - 15) 0)) (prev.getD (t - 16) 0))
    prev ++ [w]

/-- The eight working registers of the compression function. -/
structure Regs where
  ra : Nat
  rb : Nat
  rc : Nat
  rd : Nat
  re : Nat
  rf : Nat
  rg : Nat
  rh : Nat
deriving Repr, DecidableEq

/-- One compression round; `kw` is the pair (round constant, schedule word). -/
def roundStep (r : Regs) (kw : Nat × Nat) : Regs :=
  let t1 := wadd (wadd (wadd r.rh (bigSigma1 r.re)) (wadd (chF r.re r.rf r.rg) kw.1)) kw.2
  let t2 := wadd (bigSigma0 r.ra) (majF r.ra r.rb r.rc)
  ⟨wadd t1 t2, r.ra, r.rb, r.rc, wadd r.rd t1, r.re, r.rf, r.rg⟩

/-- Compress one 16-word block into the running hash state. -/
def compress (h : List Nat) (block : List Nat) : List Nat :=
  let ws := schedule block 48
  let init : Regs := ⟨h.getD 0 0, h.getD 1 0, h.getD 2 0, h.getD 3 0,
                      h.getD 4 0, h.getD 5 0, h.getD 6 0, h.getD 7 0⟩
  let fin := (shaK.zip ws).foldl roundStep init
  [wadd (h.getD 0 0) fin.ra, wadd (h.getD 1 0) fin.rb, wadd (h.getD 2 0) fin.rc,
   wadd (h.getD 3 0) fin.rd, wadd (h.getD 4 0) fin.re, wadd (h.getD 5 0) fin.rf,
   wadd (h.getD 6 0) fin.rg, wadd (h.getD 7 0) fin.rh]

/-- Four big-endian bytes to one 32-bit word, over the whole list. -/
def bytesToWords : List Nat → List Nat
  | b0 :: b1 :: b2 :: b3 :: rest => (((b0 * 256 + b1) * 256 + b2) * 256 + b3) :: bytesToWords rest
  | _ => []

/-- The 8-byte big-endian encoding of the message bit length. -/
def lenBytes (n : Nat) : List Nat :=
  [n >>> 56 % 256, n >>> 48 % 256, n >>> 40 % 256, n >>> 32 % 256,
   n >>> 24 % 256, n >>> 16 % 256, n >>> 8 % 256, n % 256]

/-- SHA-256 padding: append 0x80, zeros, and the 64-bit length. -/
def padMsg (msg : List Nat) : List Nat :=
  let L := msg.length
  let padLen := (55 + 64 - L % 64) % 64 + 1
  msg ++ (128 :: List.replicate (padLen - 1) 0) ++ lenBytes (8 * L)

/-- Split a word list into 16-word blocks; the first argument is fuel
(any value at least the list length terminates the recursion). -/
def wchunks (n : Nat) (l : List Nat) : List (List Nat) :=
  match n, l with
  | _, [] => []
  | 0, l => [l]
  | n + 1, l => l.take 16 :: wchunks n (l.drop 16)

/-- SHA-256 of a byte list, producing the 32 digest bytes. -/
def sha256 (msg : List Nat) : List Nat :=
  let padded := padMsg msg
  let wordBlocks := wchunks padded.length (bytesToWords padded)
  let hs := wordBlocks.foldl compress shaH0
  hs.foldr (fun w acc => (w >>> 24 % 256) :: (w >>> 16 % 256) :: (w >>> 8 % 256) :: (w % 256) :: acc) []

/-- HMAC-SHA256 over byte lists, as computed by Python `hmac.new(key, msg, hashlib.sha256)`. -/
def hmacSha256 (key msg : List Nat) : List Nat :=
  let k0 := if key.length > 64 then sha256 key else key
  let kp := k0 ++ List.replicate (64 - k0.length) 0
  let ipad := kp.map (fun b => b ^^^ 54)
  let opad := kp.map (fun b => b ^^^ 92)
  sha256 (opad ++ sha256 (ipad ++ msg))

/-- Hex digest of HMAC-SHA256 of two strings:
`hmac.new(key.encode(), msg.encode(), hashlib.sha256).hexdigest()`. -/
def hmacHex (key msg : String) : String :=
  bytesToHex (hmacSha256 (strBytes key) (strBytes msg))

/-! ## Python string helpers used by `DeidentificationManager` -/

/-- Python `str.lower()` (ASCII range; the identity values in the spec's
scenarios are ASCII). -/
def pyLower (s : String) : String := String.mk (s.data.map Char.toLower)

/-- Python whitespace recognized by `str.strip()` (ASCII range). -/
def pyWs (c : Char) : Bool :=
  c == ' ' || c == '\t' || c == '\n' || c == '\r' || c.toNat == 11 || c.toNat == 12

/-- Python `str.strip()`: drop leading and trailing whitespace. -/
def pyStrip (s : String) : String :=
  String.mk (((s.data.dropWhile pyWs).reverse.dropWhile pyWs).reverse)

/-- Python truthiness of an optional string: `None` and `""` are falsy. -/
def truthyStr : Option String → Bool
  | none => false
  | some s => !(s == "")

/-! ## DeidentificationManager (app/deidentify.py) -/

/-- `DeidentificationManager._hmac_hash(secret, value)` (app/deidentify.py:32-49). -/
def manager_hmac_hash (secret value : String) : String := hmacHex secret value

/-- `DeidentificationManager.generate_anon_id(email)` (app/deidentify.py:51-66):
raises `ValueError` when the email is falsy, otherwise hashes
`email.lower().strip()` under the configured secret. -/
def manager_generate_anon_id (secret : String) (email : Option String) : Except String String :=
  match email with
  | none => Except.error "Email cannot be empty"
  | some e =>
    if e == "" then Except.error "Email cannot be empty"
    else Except.ok (manager_hmac_hash secret (pyStrip (pyLower e)))

/-- A Python `datetime` value (fields relevant to `strftime("%Y-%m")`). -/
structure PyDateTime where
  year : Nat
  month : Nat
  day : Nat
  hour : Nat
  minute : Nat
  second : Nat
deriving Repr, DecidableEq

/-- Two-digit zero-padded rendering of the month, as `strftime("%m")` yields. -/
def pad2 (n : Nat) : String := if n < 10 then "0" ++ toString n else toString n

/-- Python `d.strftime("%Y-%m")` for the four-digit years the program handles. -/
def strftimeYm (d : PyDateTime) : String := toString d.year ++ "-" ++ pad2 d.month

/-- `DeidentificationManager.signup_cohort(created_at)` (app/deidentify.py:86-101):
an absent timestamp falls back to `datetime.utcnow()`, passed here as `now`. -/
def signup_cohort (created_at : Option PyDateTime) (now : PyDateTime) : String :=
  match created_at with
  | none => strftimeYm now
  | some d => strftimeYm d

/-! ## DeidentificationWorker (worker.py) -/

/-- `DeidentificationWorker.generate_anon_id(email)` (worker.py:87-93):
hashes the raw email string, with no normalization and no emptiness check. -/
def worker_generate_anon_id (secret email : String) : String := hmacHex secret email

/-- The keyword set of `is_user_table` (worker.py:62). -/
def keywords : List String := ["member", "user", "account", "profile", "raw"]

/-- Executable substring test (Python `keyword in name`). -/
def isSubstring (needle : List Char) : List Char → Bool
  | [] => needle.isEmpty
  | c :: rest => needle.isPrefixOf (c :: rest) || isSubstring needle rest

/-- Characters of a string, lowercased (Python `name.lower()` over ASCII). -/
def lowerChars (s : String) : List Char := s.data.map Char.toLower

/-- Core of `is_user_table` over the table name's characters. -/
def is_user_table_chars (l : List Char) : Bool :=
  if "_".data.isPrefixOf l || "mysql".data.isPrefixOf l then false
  else keywords.any (fun k => isSubstring k.data (l.map Char.toLower))

/-- `DeidentificationWorker.is_user_table(table_name)` (worker.py:55-63):
skip names starting with `_` or `mysql`; keep names containing a keyword. -/
def is_user_table (t : String) : Bool := is_user_table_chars t.data

/-- A column of the introspected source schema: name and declared SQL type. -/
structure ColumnDef where
  cname : String
  ctype : String
deriving Repr, DecidableEq

/-- The column list `create_deidentified_table` derives (worker.py:112-126):
every email-like column becomes `anon_id VARCHAR(64) UNIQUE NOT NULL`; the
tracking columns `source_id` and `deidentified_at` are appended. -/
def shadowColumns (cols : List ColumnDef) : List ColumnDef :=
  (cols.map (fun c =>
    if isSubstring "email".data (lowerChars c.cname) then
      ⟨"anon_id", "VARCHAR(64) UNIQUE NOT NULL"⟩
    else c))
  ++ [⟨"source_id", "INT"⟩, ⟨"deidentified_at", "DATETIME DEFAULT CURRENT_TIMESTAMP"⟩]

/-- `DeidentificationWorker.create_deidentified_table(source_table)`
(worker.py:95-137), successful path: if the shadow table already exists its
name is returned and no DDL is emitted (`none` in the second component);
otherwise the shadow schema is derived and the table is created with it.
(The failure path, where the CREATE raises and the method returns `None`,
is modelled by the `createOk` oracle of `runPlan` below.) -/
def create_deidentified_table (existingTables : List String) (source_table : String)
    (cols : List ColumnDef) : String × Option (List ColumnDef) :=
  let deident := source_table ++ "_deidentified"
  if existingTables.contains deident then (deident, none)
  else (deident, some (shadowColumns cols))

/-- The running-example source schema (spec §8; members_raw). -/
def memberColumns : List ColumnDef :=
  [⟨"id", "INT"⟩, ⟨"email", "VARCHAR(255)"⟩, ⟨"full_name", "VARCHAR(255)"⟩,
   ⟨"created_at", "DATETIME"⟩]

/-- The source table's column names in dictionary order (row_dict keys). -/
def sourceColumns : List String := ["id", "email", "full_name", "created_at"]

/-- `DeidentificationWorker.get_email_column` (worker.py:65-74): the first
column whose lowercased name contains "email". -/
def get_email_column (cols : List String) : Option String :=
  cols.find? (fun c => isSubstring "email".data (lowerChars c))

/-- The INSERT column list (worker.py:181-184 and 242-245): the row's keys
with the email column removed and `anon_id`, `source_id` appended. -/
def insertCols (emailCol : String) : List String :=
  (sourceColumns.erase emailCol) ++ ["anon_id", "source_id"]

/-- The bulk-sync VALUES placeholder for one column (worker.py:186):
the f-string `f":%{col}"`. -/
def syncPlaceholder (col : String) : String := ":%" ++ col

/-- The incremental-sync VALUES placeholder for one column (worker.py:247):
the f-string `f":{col}"`. -/
def monitorPlaceholder (col : String) : String := ":" ++ col

/-- A character SQLAlchemy accepts inside a `:name` bind-parameter name. -/
def bindNameChar (c : Char) : Bool := c.isAlphanum || c == '_'

/-- Whether a VALUES placeholder is a well-formed `:name` bind parameter.
SQLAlchemy's `text()` only recognizes `:` followed by word characters; any
other placeholder text reaches the driver verbatim and the INSERT raises. -/
def validBindParam (s : String) : Bool :=
  match s.data with
  | ':' :: rest => !rest.isEmpty && rest.all bindNameChar
  | _ => false

/-- A row of the source table under the running-example schema. -/
structure Row where
  id : Nat
  email : Option String
  full_name : Option String
  created_at : Option PyDateTime
deriving Repr, DecidableEq

/-- A row of the shadow table: the source columns minus the email column,
plus `anon_id` and `source_id` (worker.py:181-194). -/
structure ShadowRow where
  anon_id : String
  source_id : Nat
  full_name : Option String
  created_at : Option PyDateTime
deriving Repr, DecidableEq

/-- The shadow row the worker builds for one source row. -/
def mkShadowRow (secret : String) (r : Row) (e : String) : ShadowRow :=
  ⟨worker_generate_anon_id secret e, r.id, r.full_name, r.created_at⟩

/-- Execution of one `INSERT IGNORE` against the shadow table, whose `anon_id`
column is UNIQUE NOT NULL: if every placeholder is a recognized bind parameter
the statement succeeds and a duplicate `anon_id` is silently ignored;
otherwise the statement raises (`none`), which the worker catches per row. -/
def execInsertIgnore (placeholders : List String) (shadow : List ShadowRow) (r : ShadowRow) :
    Option (List ShadowRow) :=
  if placeholders.all validBindParam then
    some (if shadow.any (fun s => s.anon_id == r.anon_id) then shadow else shadow ++ [r])
  else none

/-- One row of the bulk-sync loop body (worker.py:170-196): skip falsy emails,
compute the anon id, attempt the insert with the `":%col"` placeholders,
and swallow any insert exception. -/
def syncRowStep (secret : String) (sh : List ShadowRow) (row : Row) : List ShadowRow :=
  match row.email with
  | none => sh
  | some e =>
    if e == "" then sh
    else
      match execInsertIgnore ((insertCols "email").map syncPlaceholder) sh
          (mkShadowRow secret row e) with
      | some sh2 => sh2
      | none => sh

/-- `DeidentificationWorker.sync_existing_records(source_table)`
(worker.py:139-199): no-op when no email column exists; short-circuit when
the shadow table already has rows; otherwise fold the insert loop over every
source row. -/
def sync_existing_records (secret : String) (source : List Row) (shadow : List ShadowRow) :
    List ShadowRow :=
  match get_email_column sourceColumns with
  | none => shadow
  | some _ =>
    if shadow.length > 0 then shadow
    else source.foldl (syncRowStep secret) shadow

/-- In-memory per-table state of the poller: the watermark
(`self.processed_ids[table]`, default 0) and the shadow-table contents. -/
structure MonitorState where
  watermark : Nat
  shadow : List ShadowRow
deriving Repr, DecidableEq

/-- Insertion of a row into a list sorted by primary key. -/
def insertById (r : Row) : List Row → List Row
  | [] => [r]
  | x :: xs => if r.id ≤ x.id then r :: x :: xs else x :: insertById r xs

/-- Sorting by primary key (the `ORDER BY {id_col}` of worker.py:221). -/
def sortById : List Row → List Row
  | [] => []
  | x :: xs => insertById x (sortById xs)

/-- The SELECT of worker.py:218-222: rows with primary key strictly above the
watermark, ordered by primary key. -/
def selectNewRows (last : Nat) (source : List Row) : List Row :=
  sortById (source.filter (fun r => last < r.id))

/-- One row of the polling loop body (worker.py:231-263): skip falsy emails
(without touching the watermark), attempt the insert with the `":col"`
placeholders, and on a completed insert advance the watermark to
`max(processed_ids.get(table, 0), source_id)` (worker.py:257-261). -/
def monitorStep (secret : String) (st : MonitorState) (row : Row) : MonitorState :=
  match row.email with
  | none => st
  | some e =>
    if e == "" then st
    else
      match execInsertIgnore ((insertCols "email").map monitorPlaceholder) st.shadow
          (mkShadowRow secret row e) with
      | some sh2 => ⟨max st.watermark row.id, sh2⟩
      | none => st

/-- `DeidentificationWorker.monitor_new_records(source_table)`
(worker.py:201-269): one incremental poll over the current source contents. -/
def monitor_new_records (secret : String) (source : List Row) (st : MonitorState) :
    MonitorState :=
  match get_email_column sourceColumns with
  | none => st
  | some _ => (selectNewRows st.watermark source).foldl (monitorStep secret) st

/-- A sequence of polls: `srcs` lists the source-table contents seen at each
successive poll; the result lists the state after each poll. -/
def pollSeq (secret : String) (srcs : List (List Row)) (st : MonitorState) :
    List MonitorState :=
  match srcs with
  | [] => []
  | s :: rest =>
    let st2 := monitor_new_records secret s st
    st2 :: pollSeq secret rest st2

/-- The largest primary-key value present in a source table (0 when empty). -/
def maxIdOf (source : List Row) : Nat := source.foldr (fun r m => max r.id m) 0

/-- The table lists the worker's `run` method drives (worker.py:282-313):
`user_tables` from discovery (line 285), the success map `deident_tables`
built at lines 293-297 from the `createOk` outcome of each creation attempt,
and the tables actually iterated by the bulk-sync pass (line 301) and by
every polling pass (line 310) — both of which iterate `user_tables`. -/
structure RunPlan where
  user_tables : List String
  deident_tables : List (String × String)
  sync_tables : List String
  monitor_tables : List String
deriving Repr, DecidableEq

/-- `DeidentificationWorker.run` setup (worker.py:282-313), with the outcome
of each `create_deidentified_table` call abstracted as the oracle `createOk`
(true when the call returned the shadow name, false when it returned `None`). -/
def runPlan (tables : List String) (createOk : String → Bool) : RunPlan :=
  let user_tables := tables.filter is_user_table
  let deident := (user_tables.filter createOk).map (fun t => (t, t ++ "_deidentified"))
  ⟨user_tables, deident, user_tables, user_tables⟩

/-- Observable events of the polling loop (worker.py:309-313). -/
inductive Event where
  | poll (table : String)
  | sleep
deriving Repr, DecidableEq

/-- One iteration of the `while self.running` body: poll every table in order,
then `time.sleep(interval)`. -/
def passEvents (tables : List String) : List Event :=
  tables.map Event.poll ++ [Event.sleep]

/-- The polling loop (worker.py:309-313) as an event trace. `time` counts the
events executed so far; the stop flag (set by `stop()` from the signal handler,
worker.py:319-333) reads false from event index `stopAt` on, and is consulted
only at the top of the while loop — never inside the for loop or the sleep.
`fuel` bounds the otherwise unbounded loop. -/
def runLoop (tables : List String) (stopAt : Nat) : Nat → Nat → List Event
  | _, 0 => []
  | time, fuel + 1 =>
    if stopAt ≤ time then []
    else passEvents tables ++ runLoop tables stopAt (time + (passEvents tables).length) fuel

deriving instance DecidableEq for Except

/-! ## Sanity checks of the hash embedding against published test vectors -/

/-- FIPS 180-2 test vector: SHA-256 of "abc". -/
theorem sha256_test_vector : bytesToHex (sha256 (strBytes "abc")) =
    "ba7816bf8f01cfea414140de5dae2223b00361a396177a9cb410ff61f20015ad" := by decide

/-- RFC 2202-style test vector for HMAC-SHA256. -/
theorem hmac_test_vector : hmacHex "key" "The quick brown fox jumps over the lazy dog" =
    "f7bc83f430538424b13298e6aa6fb143ef4d59a14946175997479dbc2d1a3cd8" := by decide

/-! ## Helper lemmas -/

theorem isSubstring_iff (n : List Char) : ∀ h, isSubstring n h = true ↔ n <:+: h
  | [] => by
    simp [isSubstring, List.isEmpty_iff, List.infix_nil]
  | c :: rest => by
    simp [isSubstring, Bool.or_eq_true, isSubstring_iff n rest, List.infix_cons_iff,
      List.isPrefixOf_iff_prefix]

theorem mem_insertById (a r : Row) : ∀ l, a ∈ insertById r l ↔ a = r ∨ a ∈ l
  | [] => by simp [insertById]
  | x :: xs => by
    simp only [insertById]
    split
    · simp [List.mem_cons]
    · simp only [List.mem_cons, mem_insertById a r xs]
      tauto

theorem mem_sortById (a : Row) : ∀ l, a ∈ sortById l ↔ a ∈ l
  | [] => Iff.rfl
  | x :: xs => by
    simp [sortById, mem_insertById, mem_sortById a xs]

theorem mem_selectNewRows (r : Row) (last : Nat) (src : List Row) :
    r ∈ selectNewRows last src ↔ r ∈ src ∧ last < r.id := by
  simp [selectNewRows, mem_sortById, List.mem_filter]

theorem watermark_le_monitorStep (secret : String) (st : MonitorState) (r : Row) :
    st.watermark ≤ (monitorStep secret st r).watermark := by
  unfold monitorStep
  cases r.email with
  | none => exact le_refl _
  | some e =>
    by_cases he : (e == "") = true
    · simp [he]
    · simp only [he, Bool.false_eq_true, if_false]
      cases execInsertIgnore ((insertCols "email").map monitorPlaceholder) st.shadow
          (mkShadowRow secret r e) with
      | none => exact le_refl _
      | some sh2 => exact le_max_left _ _

theorem monitorStep_watermark_le (secret : String) (st : MonitorState) (r : Row) :
    (monitorStep secret st r).watermark ≤ max st.watermark r.id := by
  unfold monitorStep
  cases r.email with
  | none => exact le_max_left _ _
  | some e =>
    by_cases he : (e == "") = true
    · simp [he]
    · simp only [he, Bool.false_eq_true, if_false]
      cases execInsertIgnore ((insertCols "email").map monitorPlaceholder) st.shadow
          (mkShadowRow secret r e) with
      | none => exact le_max_left _ _
      | some sh2 => exact le_refl _

theorem watermark_le_foldl (secret : String) :
    ∀ (l : List Row) (st : MonitorState),
      st.watermark ≤ (l.foldl (monitorStep secret) st).watermark
  | [], _ => le_refl _
  | r :: l, st =>
    le_trans (watermark_le_monitorStep secret st r)
      (watermark_le_foldl secret l (monitorStep secret st r))

theorem foldl_watermark_le (secret : String) (B : Nat) :
    ∀ (l : List Row) (st : MonitorState),
      st.watermark ≤ B → (∀ r ∈ l, r.id ≤ B) →
      (l.foldl (monitorStep secret) st).watermark ≤ B
  | [], _, hst, _ => hst
  | r :: l, st, hst, hall =>
    foldl_watermark_le secret B l (monitorStep secret st r)
      (le_trans (monitorStep_watermark_le secret st r)
        (max_le hst (hall r (List.mem_cons_self r l))))
      (fun r' hr' => hall r' (List.mem_cons_of_mem r hr'))

theorem get_email_column_sourceColumns : get_email_column sourceColumns = some "email" := by
  decide

theorem monitor_eq_foldl (secret : String) (src : List Row) (st : MonitorState) :
    monitor_new_records secret src st =
      (selectNewRows st.watermark src).foldl (monitorStep secret) st := by
  unfold monitor_new_records
  rw [get_email_column_sourceColumns]

theorem watermark_le_monitor (secret : String) (src : List Row) (st : MonitorState) :
    st.watermark ≤ (monitor_new_records secret src st).watermark := by
  rw [monitor_eq_foldl]
  exact watermark_le_foldl secret _ st

theorem maxIdOf_le_iff (B : Nat) : ∀ (l : List Row), maxIdOf l ≤ B ↔ ∀ r ∈ l, r.id ≤ B
  | [] => by simp [maxIdOf]
  | r :: l => by
    have : maxIdOf (r :: l) = max r.id (maxIdOf l) := rfl
    simp [this, max_le_iff, maxIdOf_le_iff B l]

theorem le_maxIdOf {r : Row} {l : List Row} (h : r ∈ l) : r.id ≤ maxIdOf l :=
  (maxIdOf_le_iff (maxIdOf l) l).mp (le_refl _) r h

theorem maxIdOf_subset {l l' : List Row} (h : l ⊆ l') : maxIdOf l ≤ maxIdOf l' :=
  (maxIdOf_le_iff (maxIdOf l') l).mpr (fun _ hr => le_maxIdOf (h hr))

theorem monitor_watermark_le (secret : String) (src : List Row) (st : MonitorState)
    (B : Nat) (hst : st.watermark ≤ B) (hsrc : maxIdOf src ≤ B) :
    (monitor_new_records secret src st).watermark ≤ B := by
  rw [monitor_eq_foldl]
  refine foldl_watermark_le secret B _ st hst (fun r hr => ?_)
  exact le_trans (le_maxIdOf ((mem_selectNewRows r st.watermark src).mp hr).1) hsrc

theorem pollSeq_chain (secret : String) :
    ∀ (srcs : List (List Row)) (st : MonitorState),
      List.Chain' (· ≤ ·) ((st :: pollSeq secret srcs st).map MonitorState.watermark)
  | [], st => by simp [pollSeq]
  | s :: rest, st => by
    simp only [pollSeq, List.map_cons]
    exact List.Chain'.cons (watermark_le_monitor secret s st)
      (by simpa using pollSeq_chain secret rest (monitor_new_records secret s st))

theorem pollSeq_watermark_le (secret : String) :
    ∀ (srcs : List (List Row)) (st : MonitorState),
      List.Chain' (fun a b => a ⊆ b) srcs →
      (∀ s0, srcs.head? = some s0 → st.watermark ≤ maxIdOf s0) →
      ∀ i, i < srcs.length →
        ((pollSeq secret srcs st).getD i ⟨0, []⟩).watermark ≤ maxIdOf (srcs.getD i [])
  | [], _, _, _, i, hi => absurd hi (by simp)
  | s :: rest, st, hch, hhead, i, hi => by
    have hst : st.watermark ≤ maxIdOf s := hhead s rfl
    have hst2 : (monitor_new_records secret s st).watermark ≤ maxIdOf s :=
      monitor_watermark_le secret s st (maxIdOf s) hst (le_refl _)
    cases i with
    | zero => simpa [pollSeq] using hst2
    | succ i =>
      simp only [pollSeq, List.getD_cons_succ]
      refine pollSeq_watermark_le secret rest _ hch.tail ?_ i (by simpa using hi)
      intro s1 hs1
      cases rest with
      | nil => cases hs1
      | cons s1' rest' =>
        have hs1' : s1' = s1 := by simpa using hs1
        obtain ⟨hsub, -⟩ := List.chain'_cons.mp hch
        exact le_trans hst2 (maxIdOf_subset (hs1' ▸ hsub))

theorem monitorStep_of_falsy (secret : String) (st : MonitorState) (r : Row)
    (h : truthyStr r.email = false) : monitorStep secret st r = st := by
  unfold monitorStep
  cases he : r.email with
  | none => rfl
  | some e =>
    have : (e == "") = true := by
      simpa [truthyStr, he] using h
    simp [this]

theorem foldl_of_all_falsy (secret : String) :
    ∀ (l : List Row) (st : MonitorState),
      (∀ r ∈ l, truthyStr r.email = false) → l.foldl (monitorStep secret) st = st
  | [], _, _ => rfl
  | r :: l, st, hall => by
    rw [List.foldl_cons, monitorStep_of_falsy secret st r (hall r (List.mem_cons_self r l))]
    exact foldl_of_all_falsy secret l st (fun r' hr' => hall r' (List.mem_cons_of_mem r hr'))

theorem monitorPlaceholders_valid :
    ((insertCols "email").map monitorPlaceholder).all validBindParam = true := by decide

theorem monitorStep_shadow (secret : String) (st : MonitorState) (r : Row) (sr : ShadowRow)
    (h : sr ∈ (monitorStep secret st r).shadow) :
    sr ∈ st.shadow ∨ ∃ e, r.email = some e ∧ e ≠ "" ∧ sr = mkShadowRow secret r e := by
  cases he : r.email with
  | none =>
    simp only [monitorStep, he] at h
    exact Or.inl h
  | some e =>
    by_cases hee : (e == "") = true
    · simp only [monitorStep, he, if_pos hee] at h
      exact Or.inl h
    · have hex : execInsertIgnore ((insertCols "email").map monitorPlaceholder) st.shadow
          (mkShadowRow secret r e) =
          some (if st.shadow.any (fun s => s.anon_id == (mkShadowRow secret r e).anon_id)
            then st.shadow else st.shadow ++ [mkShadowRow secret r e]) := by
        unfold execInsertIgnore
        rw [monitorPlaceholders_valid]
        rw [if_pos rfl]
      simp only [monitorStep, he, if_neg hee, hex] at h
      split at h
      · exact Or.inl h
      · rcases List.mem_append.mp h with h1 | h2
        · exact Or.inl h1
        · refine Or.inr ⟨e, rfl, ?_, by simpa using h2⟩
          simpa using hee

theorem foldl_shadow_provenance (secret : String) :
    ∀ (l : List Row) (st : MonitorState) (sr : ShadowRow),
      sr ∈ (l.foldl (monitorStep secret) st).shadow →
      sr ∈ st.shadow ∨ ∃ r ∈ l, ∃ e, r.email = some e ∧ e ≠ "" ∧ sr = mkShadowRow secret r e
  | [], _, _, h => Or.inl h
  | r :: l, st, sr, h => by
    rcases foldl_shadow_provenance secret l (monitorStep secret st r) sr h with h1 | ⟨r', hr', he⟩
    · rcases monitorStep_shadow secret st r sr h1 with h2 | ⟨e, hee⟩
      · exact Or.inl h2
      · exact Or.inr ⟨r, List.mem_cons_self r l, e, hee⟩
    · exact Or.inr ⟨r', List.mem_cons_of_mem r hr', he⟩

theorem execInsert_monitor_some (secret : String) (st : MonitorState) (r : Row) (e : String) :
    execInsertIgnore ((insertCols "email").map monitorPlaceholder) st.shadow
      (mkShadowRow secret r e) =
      some (if st.shadow.any (fun s => s.anon_id == (mkShadowRow secret r e).anon_id)
        then st.shadow else st.shadow ++ [mkShadowRow secret r e]) := by
  unfold execInsertIgnore
  rw [monitorPlaceholders_valid]
  rw [if_pos rfl]

theorem monitorStep_truthy_watermark (secret : String) (st : MonitorState) (r : Row)
    (h : truthyStr r.email = true) :
    (monitorStep secret st r).watermark = max st.watermark r.id := by
  cases he : r.email with
  | none => simp [truthyStr, he] at h
  | some e =>
    have hee : ¬((e == "") = true) := by
      rw [he] at h
      simpa [truthyStr] using h
    simp only [monitorStep, he, if_neg hee, execInsert_monitor_some]

theorem foldl_watermark_eq (secret : String) :
    ∀ (l : List Row) (st : MonitorState),
      (l.foldl (monitorStep secret) st).watermark =
        max st.watermark (maxIdOf (l.filter (fun r => truthyStr r.email)))
  | [], st => by simp [maxIdOf]
  | r :: l, st => by
    rw [List.foldl_cons]
    cases ht : truthyStr r.email with
    | false =>
      rw [monitorStep_of_falsy secret st r ht, foldl_watermark_eq secret l st]
      simp [List.filter_cons, ht]
    | true =>
      rw [foldl_watermark_eq secret l (monitorStep secret st r),
        monitorStep_truthy_watermark secret st r ht]
      simp only [List.filter_cons, ht, if_true]
      rw [show maxIdOf (r :: l.filter (fun r => truthyStr r.email)) =
        max r.id (maxIdOf (l.filter (fun r => truthyStr r.email))) from rfl]
      exact max_assoc _ _ _

theorem maxIdOf_congr {l l' : List Row} (h : ∀ r, r ∈ l ↔ r ∈ l') :
    maxIdOf l = maxIdOf l' := by
  apply le_antisymm
  · refine maxIdOf_subset ?_
    intro r hr
    exact (h r).mp hr
  · refine maxIdOf_subset ?_
    intro r hr
    exact (h r).mpr hr

theorem mem_truthy_selected (wm : Nat) (src : List Row) (r : Row) :
    r ∈ (selectNewRows wm src).filter (fun r => truthyStr r.email) ↔
      r ∈ src.filter (fun r => decide (wm < r.id) && truthyStr r.email) := by
  simp [List.mem_filter, mem_selectNewRows]
  tauto

theorem runLoop_stopped (tables : List String) (stopAt time : Nat) (h : stopAt ≤ time) :
    ∀ fuel, runLoop tables stopAt time fuel = []
  | 0 => rfl
  | fuel + 1 => by simp [runLoop, h]

theorem runLoop_whole_passes (tables : List String) (stopAt : Nat) :
    ∀ (fuel time : Nat),
      ∃ k, runLoop tables stopAt time fuel = (List.replicate k (passEvents tables)).flatten
  | 0, _ => ⟨0, rfl⟩
  | fuel + 1, time => by
    by_cases h : stopAt ≤ time
    · exact ⟨0, by simp [runLoop, h]⟩
    · obtain ⟨k, hk⟩ := runLoop_whole_passes tables stopAt fuel (time + (passEvents tables).length)
      refine ⟨k + 1, ?_⟩
      simp [runLoop, h, hk, List.replicate_succ]

theorem runLoop_length_le (tables : List String) (stopAt : Nat) :
    ∀ (fuel time : Nat),
      (runLoop tables stopAt time fuel).length ≤ (stopAt - time) + (passEvents tables).length
  | 0, _ => by simp [runLoop]
  | fuel + 1, time => by
    by_cases h : stopAt ≤ time
    · simp [runLoop, h]
    · rw [show runLoop tables stopAt time (fuel + 1) =
          passEvents tables ++ runLoop tables stopAt (time + (passEvents tables).length) fuel
        from by simp [runLoop, h]]
      rw [List.length_append]
      by_cases h2 : stopAt ≤ time + (passEvents tables).length
      · rw [runLoop_stopped tables stopAt _ h2]
        simp
      · have ih := runLoop_length_le tables stopAt fuel (time + (passEvents tables).length)
        omega

theorem keyword_length_ge (k : String) (hk : k ∈ keywords) : 3 ≤ k.data.length := by
  fin_cases hk <;> decide

theorem is_user_table_chars_append (L : List Char)
    (h : is_user_table_chars L = true) :
    is_user_table_chars (L ++ "_deidentified".data) = true := by
  unfold is_user_table_chars at h
  split at h
  · exact absurd h (by simp)
  · rename_i hpre
    rw [Bool.or_eq_true, not_or] at hpre
    obtain ⟨hu, hm⟩ := hpre
    obtain ⟨k, hkmem, hks⟩ := List.any_eq_true.mp h
    have hkinf : k.data <:+: L.map Char.toLower := (isSubstring_iff k.data _).mp hks
    have hLlen : 3 ≤ L.length := by
      have := hkinf.length_le
      rw [List.length_map] at this
      exact le_trans (keyword_length_ge k hkmem) this
    unfold is_user_table_chars
    split
    · rename_i hpre2
      exfalso
      rw [Bool.or_eq_true] at hpre2
      rcases hpre2 with h1 | h2
      · have h1p : "_".data <+: L ++ "_deidentified".data := List.isPrefixOf_iff_prefix.mp h1
        rcases List.prefix_or_prefix_of_prefix h1p (List.prefix_append L _) with hc | hc
        · exact hu (List.isPrefixOf_iff_prefix.mpr hc)
        · have := hc.length_le
          simp at this
          omega
      · have h2p : "mysql".data <+: L ++ "_deidentified".data := List.isPrefixOf_iff_prefix.mp h2
        rcases List.prefix_or_prefix_of_prefix h2p (List.prefix_append L _) with hc | hc
        · exact hm (List.isPrefixOf_iff_prefix.mpr hc)
        · have hlen5 : L.length ≤ 5 := by simpa using hc.length_le
          have hLtake : L = List.take L.length "mysql".data := List.prefix_iff_eq_take.mp hc
          have h345 : L.length = 3 ∨ L.length = 4 ∨ L.length = 5 := by omega
          rcases h345 with h3 | h4 | h5
          · rw [h3] at hLtake
            rw [show List.take 3 "mysql".data = "mys".data from rfl] at hLtake
            rw [hLtake] at hks
            fin_cases hkmem <;> simp_all
          · rw [h4] at hLtake
            rw [show List.take 4 "mysql".data = "mysq".data from rfl] at hLtake
            rw [hLtake] at hks
            fin_cases hkmem <;> simp_all
          · rw [h5] at hLtake
            rw [show List.take 5 "mysql".data = "mysql".data from rfl] at hLtake
            rw [hLtake] at hm
            exact hm (by decide)
    · refine List.any_eq_true.mpr ⟨k, hkmem, ?_⟩
      rw [isSubstring_iff]
      rw [List.map_append]
      exact hkinf.trans (List.prefix_append _ _).isInfix

/-! ## Claim theorems -/

/-- C1 (code-bug evidence): the sync engine's transform and the manual API
layer's transform do NOT produce identical anon_id values for the same
identity string and secret. `DeidentificationWorker.generate_anon_id`
(worker.py:87-93) hashes the raw email string, while
`DeidentificationManager.generate_anon_id` (app/deidentify.py:51-66) hashes
the lower-cased, stripped string; at identity "A@x.com" and secret "k" the
two digests differ. -/
theorem C1_worker_manager_disagree :
    Except.ok (worker_generate_anon_id "k" "A@x.com") ≠
      manager_generate_anon_id "k" (some "A@x.com") := by decide

/-- C2 (code-bug evidence): on the spec's end-to-end scenario the shadow table
is created with the expected derived schema, but `sync_existing_records`
leaves it EMPTY rather than with one row: the bulk-sync INSERT builds each
VALUES placeholder as `":%col"` (worker.py:186), which is not a recognized
bind parameter, so every insert raises and the exception is swallowed
(worker.py:195-196); re-running the sync also leaves zero rows. -/
theorem C2_bulk_sync_inserts_nothing :
    create_deidentified_table [] "members_raw" memberColumns =
      ("members_raw_deidentified", some (shadowColumns memberColumns)) ∧
    (shadowColumns memberColumns).map ColumnDef.cname =
      ["id", "anon_id", "full_name", "created_at", "source_id", "deidentified_at"] ∧
    ((insertCols "email").map syncPlaceholder).all validBindParam = false ∧
    sync_existing_records "k"
      [⟨1, some "a@x.com", some "Ann A", some ⟨2025, 1, 15, 0, 0, 0⟩⟩] [] = [] ∧
    sync_existing_records "k"
      [⟨1, some "a@x.com", some "Ann A", some ⟨2025, 1, 15, 0, 0, 0⟩⟩]
      (sync_existing_records "k"
        [⟨1, some "a@x.com", some "Ann A", some ⟨2025, 1, 15, 0, 0, 0⟩⟩] []) = [] := by
  decide

/-- C3 (code-bug evidence): `run` (worker.py:291-313) collects the tables
whose shadow-table creation succeeded into `deident_tables`, but then iterates
`user_tables` — not `deident_tables` — for both the bulk-sync pass (line 301)
and every polling pass (line 310); a table whose creation failed (`createOk`
false, i.e. `create_deidentified_table` returned `None`) is therefore NOT
excluded from either sync operation. -/
theorem C3_failed_table_not_excluded :
    (runPlan ["members_raw"] (fun _ => false)).deident_tables = [] ∧
    (runPlan ["members_raw"] (fun _ => false)).sync_tables = ["members_raw"] ∧
    (runPlan ["members_raw"] (fun _ => false)).monitor_tables = ["members_raw"] := by
  decide

/-- C4 (counterexample): the recorded watermark can exceed the maximum
primary key present in the source table at poll time when rows are removed
between polls. Poll 1 sees the single row with id 5 and advances the
watermark to 5; before poll 2 that row is deleted and a row with id 3 is
present, so the maximum primary key at poll 2 is 3, yet the watermark stays
at 5. -/
theorem C4_counterexample :
    ((pollSeq "k" [[⟨5, some "a@x.com", none, none⟩], [⟨3, some "b@y.com", none, none⟩]]
        ⟨0, []⟩).map MonitorState.watermark = [5, 5]) ∧
    ¬(((pollSeq "k" [[⟨5, some "a@x.com", none, none⟩], [⟨3, some "b@y.com", none, none⟩]]
        ⟨0, []⟩).getD 1 ⟨0, []⟩).watermark ≤ maxIdOf [⟨3, some "b@y.com", none, none⟩]) := by
  decide

/-- C4 (amended): across any sequence of polls the in-memory watermark is
non-decreasing, and — provided no rows are removed from the source between
polls (each poll's source contents contain the previous poll's) — after each
poll it never exceeds the maximum primary-key value present in the source
table at that poll. -/
theorem C4_amended_watermark_monotone (secret : String) (srcs : List (List Row)) :
    List.Chain' (· ≤ ·)
      ((MonitorState.mk 0 [] :: pollSeq secret srcs (MonitorState.mk 0 [])).map
        MonitorState.watermark) ∧
    (List.Chain' (fun a b => a ⊆ b) srcs →
      ∀ i, i < srcs.length →
        ((pollSeq secret srcs (MonitorState.mk 0 [])).getD i ⟨0, []⟩).watermark ≤
          maxIdOf (srcs.getD i [])) := by
  constructor
  · exact pollSeq_chain secret srcs _
  · intro hch i hi
    exact pollSeq_watermark_le secret srcs _ hch (fun s0 _ => Nat.zero_le _) i hi

theorem C4_amended_witness :
    ((pollSeq "k"
        [[⟨1, some "a@x.com", none, none⟩],
         [⟨1, some "a@x.com", none, none⟩, ⟨2, some "b@y.com", none, none⟩]]
        (MonitorState.mk 0 [])).getD 1 ⟨0, []⟩).watermark ≤
      maxIdOf [⟨1, some "a@x.com", none, none⟩, ⟨2, some "b@y.com", none, none⟩] := by
  refine (C4_amended_watermark_monotone "k"
    [[⟨1, some "a@x.com", none, none⟩],
     [⟨1, some "a@x.com", none, none⟩, ⟨2, some "b@y.com", none, none⟩]]).2 ?_ 1 (by decide)
  refine List.chain'_cons.mpr ⟨?_, List.chain'_singleton _⟩
  intro x hx
  rw [List.mem_singleton] at hx
  subst hx
  exact List.mem_cons_self _ _

/-- C5 (counterexample): a selected source row whose identity value is empty
is skipped, but it does NOT advance the watermark: `continue` at worker.py:237
fires before the watermark update at worker.py:257-261. With one row (id 2,
empty email) the watermark stays 0, nothing is inserted, and the same row is
selected again by the next poll. -/
theorem C5_counterexample :
    (monitor_new_records "k" [⟨2, some "", none, none⟩] ⟨0, []⟩).watermark = 0 ∧
    (monitor_new_records "k" [⟨2, some "", none, none⟩] ⟨0, []⟩).shadow = [] ∧
    ⟨2, some "", none, none⟩ ∈ selectNewRows
      (monitor_new_records "k" [⟨2, some "", none, none⟩] ⟨0, []⟩).watermark
      [⟨2, some "", none, none⟩] := by
  decide

/-- C5 (amended): during an incremental poll over an arbitrary source, a
selected row whose identity value is null/empty is skipped without insertion
and contributes nothing to the watermark: the watermark after the poll is
exactly the old watermark joined with the primary keys of the selected rows
that DO carry an identity value; every shadow row either pre-existed or
originates from an identity-bearing row; and a skipped row is selected again
by the next poll exactly when the watermark is still below its primary key
(so it is re-read forever unless some identity-bearing row at or above its
key advances the watermark past it). -/
theorem C5_amended_skip_no_advance (secret : String) (src : List Row) (st : MonitorState) :
    (monitor_new_records secret src st).watermark =
      max st.watermark
        (maxIdOf (src.filter (fun r => decide (st.watermark < r.id) && truthyStr r.email))) ∧
    (∀ sr ∈ (monitor_new_records secret src st).shadow,
      sr ∈ st.shadow ∨
        ∃ r ∈ src, ∃ e, r.email = some e ∧ e ≠ "" ∧ sr = mkShadowRow secret r e) ∧
    (∀ r ∈ src, truthyStr r.email = false →
      (r ∈ selectNewRows (monitor_new_records secret src st).watermark src ↔
        (monitor_new_records secret src st).watermark < r.id)) := by
  refine ⟨?_, ?_, ?_⟩
  · rw [monitor_eq_foldl, foldl_watermark_eq]
    congr 1
    exact maxIdOf_congr (fun r => mem_truthy_selected st.watermark src r)
  · intro sr h
    rw [monitor_eq_foldl] at h
    rcases foldl_shadow_provenance secret _ st sr h with h1 | ⟨r, hr, rest⟩
    · exact Or.inl h1
    · exact Or.inr ⟨r, ((mem_selectNewRows r st.watermark src).mp hr).1, rest⟩
  · intro r hr _
    constructor
    · intro hmem
      exact ((mem_selectNewRows r _ src).mp hmem).2
    · intro hlt
      exact (mem_selectNewRows r _ src).mpr ⟨hr, hlt⟩

theorem C5_amended_witness :
    (monitor_new_records "k" [⟨2, some "", none, none⟩, ⟨3, some "b@y.com", none, none⟩]
        (MonitorState.mk 0 [])).watermark =
      max 0 (maxIdOf ([⟨2, some "", none, none⟩, ⟨3, some "b@y.com", none, none⟩].filter
        (fun r => decide ((0 : Nat) < r.id) && truthyStr r.email))) ∧
    (⟨2, some "", none, none⟩ ∈ selectNewRows
        (monitor_new_records "k" [⟨2, some "", none, none⟩, ⟨3, some "b@y.com", none, none⟩]
          (MonitorState.mk 0 [])).watermark
        [⟨2, some "", none, none⟩, ⟨3, some "b@y.com", none, none⟩] ↔
      (monitor_new_records "k" [⟨2, some "", none, none⟩, ⟨3, some "b@y.com", none, none⟩]
        (MonitorState.mk 0 [])).watermark < 2) :=
  ⟨(C5_amended_skip_no_advance "k"
      [⟨2, some "", none, none⟩, ⟨3, some "b@y.com", none, none⟩] (MonitorState.mk 0 [])).1,
   (C5_amended_skip_no_advance "k"
      [⟨2, some "", none, none⟩, ⟨3, some "b@y.com", none, none⟩] (MonitorState.mk 0 [])).2.2
     ⟨2, some "", none, none⟩ (by decide) (by decide)⟩

/-- C6: the manual API transform `DeidentificationManager.generate_anon_id`
fails (raises `ValueError`) if and only if the identity value is absent
(`None`) or the empty string; and in the polling path every row present in
the shadow table after a poll either was already there or originates from a
selected source row with a non-empty identity value — a row with null/empty
identity is never inserted, and the poll (a total function here) does not
fail on it. -/
theorem C6_empty_identity_skipped :
    (∀ (secret : String) (email : Option String),
      (∃ msg, manager_generate_anon_id secret email = Except.error msg) ↔
        (email = none ∨ email = some "")) ∧
    (∀ (secret : String) (src : List Row) (st : MonitorState) (sr : ShadowRow),
      sr ∈ (monitor_new_records secret src st).shadow →
      sr ∈ st.shadow ∨
        ∃ r ∈ src, ∃ e, r.email = some e ∧ e ≠ "" ∧ sr = mkShadowRow secret r e) := by
  constructor
  · intro secret email
    constructor
    · rintro ⟨msg, hmsg⟩
      cases email with
      | none => exact Or.inl rfl
      | some e =>
        right
        by_cases he : (e == "") = true
        · have : e = "" := by simpa using he
          rw [this]
        · exfalso
          simp only [manager_generate_anon_id, if_neg he] at hmsg
          cases hmsg
    · rintro (rfl | rfl)
      · exact ⟨"Email cannot be empty", rfl⟩
      · exact ⟨"Email cannot be empty", rfl⟩
  · intro secret src st sr h
    rw [monitor_eq_foldl] at h
    rcases foldl_shadow_provenance secret _ st sr h with h1 | ⟨r, hr, rest⟩
    · exact Or.inl h1
    · exact Or.inr ⟨r, ((mem_selectNewRows r st.watermark src).mp hr).1, rest⟩

theorem C6_witness :
    (∃ msg, manager_generate_anon_id "k" (some "") = Except.error msg) ∧
    (mkShadowRow "k" ⟨1, some "a@x.com", none, none⟩ "a@x.com" ∈
        (MonitorState.mk 0 []).shadow ∨
      ∃ r ∈ [(⟨1, some "a@x.com", none, none⟩ : Row)], ∃ e,
        r.email = some e ∧ e ≠ "" ∧
        mkShadowRow "k" ⟨1, some "a@x.com", none, none⟩ "a@x.com" = mkShadowRow "k" r e) :=
  ⟨(C6_empty_identity_skipped.1 "k" (some "")).mpr (Or.inr rfl),
   C6_empty_identity_skipped.2 "k" [⟨1, some "a@x.com", none, none⟩] ⟨0, []⟩
     (mkShadowRow "k" ⟨1, some "a@x.com", none, none⟩ "a@x.com") (by decide)⟩

/-- C7: bulk sync is idempotent. If the shadow table already has at least one
row, `sync_existing_records` returns it unchanged — independently of the
source contents, so the source is not read — and running the sync twice
against the same source/shadow pair yields exactly the result (hence the row
count) of running it once. -/
theorem C7_bulk_sync_idempotent (secret : String) (src src2 : List Row)
    (sh : List ShadowRow) :
    (0 < sh.length → sync_existing_records secret src sh = sh ∧
      sync_existing_records secret src sh = sync_existing_records secret src2 sh) ∧
    sync_existing_records secret src (sync_existing_records secret src sh) =
      sync_existing_records secret src sh := by
  have hunf : ∀ (s : List Row) (t : List ShadowRow), sync_existing_records secret s t =
      if t.length > 0 then t else s.foldl (syncRowStep secret) t := by
    intro s t
    unfold sync_existing_records
    rw [get_email_column_sourceColumns]
  constructor
  · intro hpos
    rw [hunf, hunf, if_pos hpos, if_pos hpos]
    exact ⟨rfl, rfl⟩
  · by_cases hpos : 0 < sh.length
    · rw [hunf src sh, if_pos hpos, hunf src sh, if_pos hpos]
    · have hnil : sh = [] := by
        cases sh with
        | nil => rfl
        | cons a l => exact absurd (Nat.succ_pos _) hpos
      subst hnil
      rw [hunf src [], if_neg (by decide)]
      by_cases hr : 0 < (src.foldl (syncRowStep secret) []).length
      · rw [hunf, if_pos hr]
      · have hre : src.foldl (syncRowStep secret) [] = [] :=
          List.eq_nil_of_length_eq_zero (by omega)
        rw [hre, hunf src [], if_neg (by decide)]
        exact hre

theorem C7_witness :
    sync_existing_records "k" [⟨1, some "a@x.com", none, none⟩]
      [⟨"aa", 1, none, none⟩] = [⟨"aa", 1, none, none⟩] :=
  ((C7_bulk_sync_idempotent "k" [⟨1, some "a@x.com", none, none⟩] []
    [⟨"aa", 1, none, none⟩]).1 (by decide)).1

/-- C8 (counterexample): the stop flag is consulted only at the top of the
`while self.running` loop (worker.py:309), AFTER `time.sleep(interval)` at
worker.py:313 has run — so when a termination signal arrives during a pass,
the loop still executes the full poll-interval sleep before exiting: with one
table and the stop requested at event index 1 (right after the pass's only
poll), the events that still execute include a sleep, contradicting the claim
that shutdown latency is bounded by one table-list pass and not by the poll
interval. -/
theorem C8_counterexample :
    runLoop ["members_raw"] 1 0 5 = [Event.poll "members_raw", Event.sleep] ∧
    Event.sleep ∈ (runLoop ["members_raw"] 1 0 5).drop 1 := by decide

/-- C8 (amended): a termination signal sets the stop flag and the loop
finishes its current full pass over all tables before exiting — the trace is
always a concatenation of whole passes (each pass = one poll per table
followed by the interval sleep), so the loop never stops mid-table-list —
and shutdown latency is bounded by one table-list pass PLUS one poll-interval
sleep: at most one pass worth of events runs after the stop request. -/
theorem C8_amended_shutdown (tables : List String) (stopAt time fuel : Nat) :
    (∃ k, runLoop tables stopAt time fuel = (List.replicate k (passEvents tables)).flatten) ∧
    (runLoop tables stopAt time fuel).length ≤ (stopAt - time) + (passEvents tables).length :=
  ⟨runLoop_whole_passes tables stopAt fuel time, runLoop_length_le tables stopAt fuel time⟩

/-- C9: `signup_cohort` maps any datetime in January 2025 to the literal
string "2025-01", and an absent timestamp falls back to the cohort of the
current processing time (`datetime.utcnow()`) instead of failing. -/
theorem C9_signup_cohort (d now : PyDateTime) (hy : d.year = 2025) (hm : d.month = 1) :
    signup_cohort (some d) now = "2025-01" ∧ signup_cohort none now = strftimeYm now := by
  constructor
  · show strftimeYm d = "2025-01"
    unfold strftimeYm
    rw [hy, hm]
    decide
  · rfl

theorem C9_witness :
    signup_cohort (some ⟨2025, 1, 15, 0, 0, 0⟩) ⟨2026, 10, 12, 0, 0, 0⟩ = "2025-01" :=
  (C9_signup_cohort ⟨2025, 1, 15, 0, 0, 0⟩ ⟨2026, 10, 12, 0, 0, 0⟩ rfl rfl).1

/-- C10: appending the shadow suffix preserves the `is_user_table`
classification: if a table name is classified as identity-bearing, then so is
its derived shadow-table name `t ++ "_deidentified"` — the suffix changes
neither the system-prefix test nor keyword containment — so on a restart the
worker's discovery pass selects previously created shadow tables themselves
as user tables. -/
theorem C10_shadow_name_is_user_table (t : String) (h : is_user_table t = true) :
    is_user_table (t ++ "_deidentified") = true := by
  unfold is_user_table at h ⊢
  rw [String.data_append]
  exact is_user_table_chars_append t.data h

theorem C10_witness : is_user_table ("members_raw" ++ "_deidentified") = true :=
  C10_shadow_name_is_user_table "members_raw" (by decide)

end DeidentApp
